import Mathlib

/-!
Shallow embedding of the typeorm-event-functions data-access layer.

The repository has two near-duplicate variants of one module `functions.ts`:
a base variant and a connection-name-aware variant.  Both are embedded here:
the base variant in namespace `Base`, the connection-name-aware one in
namespace `Named`.  Query builders are modelled as pure records of the state
that the TypeORM builder methods (`setLock`, `where`, `orderBy`, `take`,
`skip`, `delete().from(...)`, `update(...).set(...)`) accumulate; execution
against the external store is modelled by oracle functions supplied as
parameters, and each operation additionally returns a trace of the primitive
store calls and notification dispatches it performed, in temporal order.
JavaScript truthiness of the optional `lockVersion` (`number | Date`) is
modelled faithfully: the number `0` is falsy, a `Date` object is always
truthy.
-/

namespace TEF

/-- The three explicit TypeORM lock modes accepted by the builders. -/
inductive LockMode where
  | pessimistic_read
  | pessimistic_write
  | optimistic
deriving DecidableEq, Repr

/-- A lock version token: either a numeric counter or a `Date` timestamp. -/
inductive LockVersion where
  | counter (n : Nat)
  | timestamp (t : Nat)
deriving DecidableEq, Repr

/-- JavaScript truthiness of a `number | Date` lock version: the number `0`
is falsy, every `Date` object is truthy. -/
def LockVersion.truthy : LockVersion → Bool
  | .counter n => n != 0
  | .timestamp _ => true

/-- JavaScript truthiness of the optional `lockVersion` parameter
(`undefined` is falsy). -/
def truthyVersion : Option LockVersion → Bool
  | none => false
  | some v => v.truthy

/-- Error raised by `createQueryBuilderAsync`: the JS code throws
`new Error("Lock version not specified")`. -/
inductive BuilderErr where
  | lockVersionNotSpecified
deriving DecidableEq, Repr

/-- The state a TypeORM select query builder accumulates before execution.
`W` is the type of where-expressions, `P` the type of parameter maps.
`connection` records which named data source produced the builder
(`getConnection()` with no argument resolves the `"default"` connection). -/
structure QB (W P : Type) where
  connection : String := "default"
  lock : Option (LockMode × Option LockVersion) := none
  whereCond : Option (W × Option P) := none
deriving DecidableEq, Repr

/-- The `.where(cond, params)` builder method. -/
def QB.whereM {W P : Type} (qb : QB W P) (w : W) (p : Option P) : QB W P :=
  { qb with whereCond := some (w, p) }

namespace Base

/-- Embedding of the base variant's `createQueryBuilderAsync`: creates a
fresh builder from the default connection's repository, then, for
`optimistic`, throws when the version token is missing (or falsy) and
otherwise applies `setLock(mode, version)`; for a pessimistic mode applies
`setLock(mode)`; otherwise leaves the builder unlocked. -/
def createQueryBuilderAsync (W P : Type)
    (lockMode : Option LockMode) (lockVersion : Option LockVersion) :
    Except BuilderErr (QB W P) :=
  let qb : QB W P := {}
  match lockMode with
  | some .optimistic =>
      if truthyVersion lockVersion then
        -- both the Date branch and the number branch call
        -- setLock(lockMode, lockVersion)
        .ok { qb with lock := some (.optimistic, lockVersion) }
      else .error .lockVersionNotSpecified
  | some .pessimistic_read => .ok { qb with lock := some (.pessimistic_read, none) }
  | some .pessimistic_write => .ok { qb with lock := some (.pessimistic_write, none) }
  | none => .ok qb

/-- Embedding of the base variant's `simplifiedQueryBuilderAsync`: routes to
`createQueryBuilderAsync`, but forwards an `optimistic` lock request only
when the version token is truthy; with a missing (or falsy) version it calls
`createQueryBuilderAsync({ target })`, i.e. builds an unlocked query. -/
def simplifiedQueryBuilderAsync (W P : Type)
    (lockMode : Option LockMode) (lockVersion : Option LockVersion) :
    Except BuilderErr (QB W P) :=
  match lockMode with
  | some .optimistic =>
      if truthyVersion lockVersion then
        createQueryBuilderAsync W P (some .optimistic) lockVersion
      else createQueryBuilderAsync W P none none
  | some .pessimistic_read =>
      createQueryBuilderAsync W P (some .pessimistic_read) none
  | some .pessimistic_write =>
      createQueryBuilderAsync W P (some .pessimistic_write) none
  | none => createQueryBuilderAsync W P none none

/-- Embedding of `selectQueryBuilderAsync`: a simplified builder with
`.where(where, parameters)` applied. -/
def selectQueryBuilderAsync (W P : Type) (w : W) (params : Option P)
    (lockMode : Option LockMode) (lockVersion : Option LockVersion) :
    Except BuilderErr (QB W P) :=
  (simplifiedQueryBuilderAsync W P lockMode lockVersion).map
    (fun qb => qb.whereM w params)

/-- Embedding of `deleteQueryBuilderAsync`: a simplified builder converted by
`.delete().from(target)` into a delete builder; the accumulated builder state
(in particular the lock) is preserved by the conversion. -/
def deleteQueryBuilderAsync (W P : Type)
    (lockMode : Option LockMode) (lockVersion : Option LockVersion) :
    Except BuilderErr (QB W P) :=
  simplifiedQueryBuilderAsync W P lockMode lockVersion

end Base

namespace Named

/-- Embedding of the connection-name-aware `getRepositoryAsync`: the
defaulted parameter `connectionName = "default"` resolves `undefined` to the
default connection name. -/
def resolveConnection (connectionName : Option String) : String :=
  connectionName.getD "default"

/-- Embedding of the connection-name-aware `createQueryBuilderAsync`: like
the base variant, but the builder is created from the repository of the
named connection. -/
def createQueryBuilderAsync (W P : Type)
    (lockMode : Option LockMode) (lockVersion : Option LockVersion)
    (connectionName : Option String) :
    Except BuilderErr (QB W P) :=
  let qb : QB W P := { connection := resolveConnection connectionName }
  match lockMode with
  | some .optimistic =>
      if truthyVersion lockVersion then
        .ok { qb with lock := some (.optimistic, lockVersion) }
      else .error .lockVersionNotSpecified
  | some .pessimistic_read => .ok { qb with lock := some (.pessimistic_read, none) }
  | some .pessimistic_write => .ok { qb with lock := some (.pessimistic_write, none) }
  | none => .ok qb

/-- Embedding of the connection-name-aware `simplifiedQueryBuilderAsync`.
Only the optimistic-with-truthy-version branch forwards `connectionName`;
every other branch calls `createQueryBuilderAsync` without it. -/
def simplifiedQueryBuilderAsync (W P : Type)
    (lockMode : Option LockMode) (lockVersion : Option LockVersion)
    (connectionName : Option String) :
    Except BuilderErr (QB W P) :=
  match lockMode with
  | some .optimistic =>
      if truthyVersion lockVersion then
        createQueryBuilderAsync W P (some .optimistic) lockVersion connectionName
      else createQueryBuilderAsync W P none none none
  | some .pessimistic_read =>
      createQueryBuilderAsync W P (some .pessimistic_read) none none
  | some .pessimistic_write =>
      createQueryBuilderAsync W P (some .pessimistic_write) none none
  | none => createQueryBuilderAsync W P none none none

end Named

/-- Trace events of the repository-level operations.  `notifyStart b`
records that the `sendEvent` callback was invoked with argument `b`;
`notifyDone b` records that the call's promise was awaited to completion
inside the operation.  A fire-and-forget dispatch leaves a `notifyStart`
with no matching `notifyDone`. -/
inductive Event (B : Type) where
  | retrieveCall
  | storeUpdate
  | storeDelete
  | storeSave
  | notifyStart (arg : B)
  | notifyDone (arg : B)
deriving DecidableEq, Repr

/-- Errors an operation can surface: the update guard's
`new Error("Not possible to update the given entity")`, or a rejection
propagated from an awaited `sendEvent` callback. -/
inductive OpErr where
  | notFound
  | notifyFailed
deriving DecidableEq, Repr

namespace Base

/-- Embedding of `updateAsync`.  `retrievalFunction` is the caller-supplied
retrieval, a read of the external store state `σ`; `repoUpdate` is the
effect of `repo.update(criteria, elementToUpdate)` on the store; the
callback `sendEvent` may succeed with a value or fail (a rejected promise).
The result is the operation's outcome together with the trace of store calls
and notification dispatches, in order. -/
def updateAsync {σ B R : Type}
    (retrievalFunction : σ → Option B)
    (repoUpdate : σ → σ)
    (sendEvent : Option (B → Except Unit R))
    (s : σ) : Except OpErr (Option B) × List (Event B) :=
  match retrievalFunction s with
  | none => (.error .notFound, [.retrieveCall])
  | some b =>
      let s₂ := repoUpdate s
      match sendEvent with
      | none =>
          (.ok (retrievalFunction s₂),
           [.retrieveCall, .storeUpdate, .retrieveCall])
      | some f =>
          match f b with
          | .error _ =>
              (.error .notifyFailed,
               [.retrieveCall, .storeUpdate, .notifyStart b])
          | .ok _ =>
              (.ok (retrievalFunction s₂),
               [.retrieveCall, .storeUpdate, .notifyStart b, .notifyDone b,
                .retrieveCall])

/-- Embedding of `deleteOneAsync`.  Retrieval first; only when a value is
present is `repo.delete(criteria)` issued, followed by an awaited
notification with the pre-delete snapshot; the pre-delete optional is
returned in every non-throwing case. -/
def deleteOneAsync {σ B R : Type}
    (retrievalFunction : σ → Option B)
    (sendEvent : Option (B → Except Unit R))
    (s : σ) : Except OpErr (Option B) × List (Event B) :=
  match retrievalFunction s with
  | none => (.ok none, [.retrieveCall])
  | some b =>
      match sendEvent with
      | none => (.ok (some b), [.retrieveCall, .storeDelete])
      | some f =>
          match f b with
          | .error _ =>
              (.error .notifyFailed, [.retrieveCall, .storeDelete, .notifyStart b])
          | .ok _ =>
              (.ok (some b),
               [.retrieveCall, .storeDelete, .notifyStart b, .notifyDone b])

/-- Embedding of `createOneAsync`.  `save` is `repo.save(elementToCreate,
options)` returning the saved record and the new store state; the projection
is applied, then the notification is awaited when supplied. -/
def createOneAsync {σ A B R : Type}
    (save : σ → A → A × σ)
    (createFromModel : A → B)
    (sendEvent : Option (B → Except Unit R))
    (elementToCreate : A) (s : σ) :
    Except OpErr B × σ × List (Event B) :=
  let (saved, s₁) := save s elementToCreate
  let element := createFromModel saved
  match sendEvent with
  | none => (.ok element, s₁, [.storeSave])
  | some f =>
      match f element with
      | .error _ => (.error .notifyFailed, s₁, [.storeSave, .notifyStart element])
      | .ok _ =>
          (.ok element, s₁, [.storeSave, .notifyStart element, .notifyDone element])

/-- Embedding of `createAsync` (bulk create).  `saveMany` is
`repo.save(elementsToCreate, options)`.  Each mapped async closure invokes
`sendEvent` synchronously (so the starts occur in record order) and
`Promise.all` awaits every notification before the operation returns; one
rejected notification rejects the whole operation. -/
def createAsync {σ A B R : Type}
    (saveMany : σ → List A → List A × σ)
    (createFromModel : A → B)
    (sendEvent : Option (B → Except Unit R))
    (elementsToCreate : List A) (s : σ) :
    Except OpErr (List B) × σ × List (Event B) :=
  let (savedList, s₁) := saveMany s elementsToCreate
  let elems := savedList.map createFromModel
  match sendEvent with
  | none => (.ok elems, s₁, [.storeSave])
  | some f =>
      if elems.all (fun b => (f b).isOk) then
        (.ok elems, s₁,
         .storeSave :: (elems.map Event.notifyStart ++ elems.map Event.notifyDone))
      else
        (.error .notifyFailed, s₁, .storeSave :: elems.map Event.notifyStart)

end Base

/-- Trace events of the query-builder operations: execution of a select,
update or delete builder (with the full builder state it executed with), and
notification dispatches as in `Event`. -/
inductive QEvent (T W P U : Type) where
  | selectExec (qb : QB W P)
  | updateExec (qb : QB W P) (vals : U)
  | deleteExec (qb : QB W P)
  | notifyStart (t : T)
  | notifyDone (t : T)
deriving DecidableEq, Repr

namespace Base

/-- Embedding of `deleteEntriesBasedOnConditionPessimisticAsync`: select the
matching rows through an unlocked `selectQueryBuilderAsync`, dispatch
`sendEvent` per selected row without awaiting (`forEach(async entry =>
sendEvent(entry))` starts each call and discards its promise), then execute
a freshly built `pessimistic_write`-locked delete builder with the same
where condition and parameters, and return the rows selected before the
delete.  `getMany` and `execDelete` are the store's execution of the given
builder against store state `σ`. -/
def deleteEntriesBasedOnConditionPessimisticAsync {σ T R W P U : Type}
    (getMany : QB W P → σ → List T)
    (execDelete : QB W P → σ → σ)
    (sendEvent : Option (T → Except Unit R))
    (w : W) (params : Option P) (s : σ) :
    Except BuilderErr (List T × σ × List (QEvent T W P U)) :=
  match selectQueryBuilderAsync W P w params none none with
  | .error e => .error e
  | .ok sqb =>
      let entitiesBeingDeleted := getMany sqb s
      let notif : List (QEvent T W P U) :=
        match sendEvent with
        | some _ => entitiesBeingDeleted.map QEvent.notifyStart
        | none => []
      match deleteQueryBuilderAsync W P (some .pessimistic_write) none with
      | .error e => .error e
      | .ok dqb₀ =>
          let dqb := dqb₀.whereM w params
          let s₂ := execDelete dqb s
          .ok (entitiesBeingDeleted, s₂,
               (QEvent.selectExec sqb :: notif) ++ [QEvent.deleteExec dqb])

/-- Embedding of `updateEntriesAsync`: build a (possibly locked) simplified
builder, convert it with `.update(target).set(updateValues).where(where,
parameters)` and execute it, then re-select through `selectQueryBuilderAsync`
with the same where condition (the source passes no parameters and no lock to
the re-select), dispatch `sendEvent` per re-selected row without awaiting,
and return the re-selected (post-mutation) rows. -/
def updateEntriesAsync {σ T R W P U : Type}
    (execUpdate : QB W P → U → σ → σ)
    (getMany : QB W P → σ → List T)
    (updateValues : U)
    (sendEvent : Option (T → Except Unit R))
    (w : W) (params : Option P)
    (lockMode : Option LockMode) (lockVersion : Option LockVersion)
    (s : σ) :
    Except BuilderErr (List T × σ × List (QEvent T W P U)) :=
  match simplifiedQueryBuilderAsync W P lockMode lockVersion with
  | .error e => .error e
  | .ok qb₀ =>
      let uqb := qb₀.whereM w params
      let s₂ := execUpdate uqb updateValues s
      match selectQueryBuilderAsync W P w none none none with
      | .error e => .error e
      | .ok sqb =>
          let select := getMany sqb s₂
          let notif : List (QEvent T W P U) :=
            match sendEvent with
            | some _ => select.map QEvent.notifyStart
            | none => []
          .ok (select, s₂,
               QEvent.updateExec uqb updateValues :: QEvent.selectExec sqb :: notif)

end Base

/-- For the read operations the where-condition of a builder is modelled
semantically, as a decidable predicate on rows, and the `orderBy` clause as
the store's reordering of the result list, so that builder execution against
a store (a list of rows) is executable. -/
structure ReadQB (A : Type) where
  whereCond : Option (A → Bool) := none
  order : Option (List A → List A) := none
  takeN : Option Nat := none
  skipN : Option Nat := none

/-- Execution of a read builder against the store's rows: apply the where
filter, then the ordering, then `OFFSET skip` and `LIMIT take`. -/
def ReadQB.getMany {A : Type} (qb : ReadQB A) (rows : List A) : List A :=
  let filtered :=
    match qb.whereCond with
    | none => rows
    | some p => rows.filter p
  let ordered :=
    match qb.order with
    | none => filtered
    | some f => f filtered
  let skipped :=
    match qb.skipN with
    | none => ordered
    | some n => ordered.drop n
  match qb.takeN with
  | none => skipped
  | some n => skipped.take n

/-- `getCount()` counts the rows matched by the where filter without
materializing them as entities. -/
def ReadQB.getCount {A : Type} (qb : ReadQB A) (rows : List A) : Nat :=
  (match qb.whereCond with
   | none => rows
   | some p => rows.filter p).length

/-- `getOne()` returns the first row of the executed query, if any. -/
def ReadQB.getOne {A : Type} (qb : ReadQB A) (rows : List A) : Option A :=
  (qb.getMany rows).head?

/-- JavaScript truthiness of an optional numeric amount: `undefined` and `0`
are falsy (the source guards `take`/`skip` with `if (takeAmount)`). -/
def natTruthy : Option Nat → Bool
  | none => false
  | some n => n != 0

/-- A scalar lookup key: the `string | number | Date` arm of the condition
union, routed to `repo.findOne(condition)`. -/
inductive ScalarKey where
  | str (s : String)
  | num (n : Int)
  | date (d : Nat)
deriving DecidableEq, Repr

/-- The condition union of `findOneAsync`: a scalar primary-identity key or
a structured `FindConditions` field-match, the latter modelled as a row
predicate. -/
inductive FindCondition (A : Type) where
  | scalar (k : ScalarKey)
  | structured (p : A → Bool)

/-- Which lookup path `findOneAsync` took: the direct `repo.findOne` path or
the query-builder path. -/
inductive FindPath where
  | direct
  | builder
deriving DecidableEq, Repr

namespace Base

/-- Embedding of `anyAsync`: an unlocked builder, `.where(condition)` when a
condition is supplied, then `getCount() > 0`. -/
def anyAsync {A : Type} (condition : Option (A → Bool)) (rows : List A) : Bool :=
  let qb : ReadQB A := {}
  let qb :=
    match condition with
    | some c => { qb with whereCond := some c }
    | none => qb
  decide (qb.getCount rows > 0)

/-- Embedding of `findAsync`: an unlocked builder; `orderBy` when supplied;
`.where(findConditions)` applied unconditionally (an absent condition leaves
the builder unfiltered); `take`/`skip` only when truthy; then
`getMany()` mapped through the projection. -/
def findAsync {A B : Type} (createFromModel : A → B)
    (findConditions : Option (A → Bool))
    (orderByCondition : Option (List A → List A))
    (takeAmount skipAmount : Option Nat)
    (rows : List A) : List B :=
  let qb : ReadQB A := {}
  let qb :=
    match orderByCondition with
    | some o => { qb with order := some o }
    | none => qb
  let qb := { qb with whereCond := findConditions }
  let qb := if natTruthy takeAmount then { qb with takeN := takeAmount } else qb
  let qb := if natTruthy skipAmount then { qb with skipN := skipAmount } else qb
  (qb.getMany rows).map createFromModel

/-- Embedding of `findOneAsync`.  A scalar condition (string, number or
Date) takes the direct `repo.findOne` path (`repoFindOne` is the store's
primary-identity lookup); otherwise the query-builder path applies the
optional ordering and, when a condition is present, the where filter, then
takes `getOne()`.  `Some(x).map(f)` of the optional library is `Option.map`:
an absent match yields an empty optional.  The second component records the
path taken. -/
def findOneAsync {A B : Type} (repoFindOne : ScalarKey → Option A)
    (createFromModel : A → B)
    (condition : Option (FindCondition A))
    (orderByCondition : Option (List A → List A))
    (rows : List A) : Option B × FindPath :=
  match condition with
  | some (.scalar k) => ((repoFindOne k).map createFromModel, .direct)
  | some (.structured p) =>
      let qb : ReadQB A := {}
      let qb :=
        match orderByCondition with
        | some o => { qb with order := some o }
        | none => qb
      let qb := { qb with whereCond := some p }
      ((qb.getOne rows).map createFromModel, .builder)
  | none =>
      let qb : ReadQB A := {}
      let qb :=
        match orderByCondition with
        | some o => { qb with order := some o }
        | none => qb
      ((qb.getOne rows).map createFromModel, .builder)

end Base

/-! ## Theorems about the embedded operations -/

/-- Evaluation of the bulk pessimistic delete: the unlocked select with the
given condition runs first, one notification dispatch per selected row
follows, and a `pessimistic_write`-locked delete with the same condition and
parameters executes last; the pre-delete rows are returned. -/
theorem deleteEntries_eval {σ T R W P U : Type}
    (getMany : QB W P → σ → List T) (execDelete : QB W P → σ → σ)
    (f : T → Except Unit R) (w : W) (params : Option P) (s : σ) :
    Base.deleteEntriesBasedOnConditionPessimisticAsync (U := U)
        getMany execDelete (some f) w params s
      = .ok
          (getMany ({ whereCond := some (w, params) } : QB W P) s,
           execDelete
             ({ lock := some (.pessimistic_write, none),
                whereCond := some (w, params) } : QB W P) s,
           (QEvent.selectExec ({ whereCond := some (w, params) } : QB W P)
              :: (getMany ({ whereCond := some (w, params) } : QB W P) s).map
                   QEvent.notifyStart)
             ++ [QEvent.deleteExec
                   ({ lock := some (.pessimistic_write, none),
                      whereCond := some (w, params) } : QB W P)]) := rfl

/-- Evaluation of the bulk update (unlocked): the update with the given
condition, parameters and set values executes first, the re-select with the
same condition (and no parameters) runs against the post-update store, and
one notification dispatch per re-selected row follows; the post-mutation
rows are returned. -/
theorem updateEntries_eval {σ T R W P U : Type}
    (execUpdate : QB W P → U → σ → σ) (getMany : QB W P → σ → List T)
    (vals : U) (f : T → Except Unit R) (w : W) (params : Option P) (s : σ) :
    Base.updateEntriesAsync execUpdate getMany vals (some f) w params
        none none s
      = .ok
          (getMany ({ whereCond := some (w, none) } : QB W P)
             (execUpdate ({ whereCond := some (w, params) } : QB W P) vals s),
           execUpdate ({ whereCond := some (w, params) } : QB W P) vals s,
           QEvent.updateExec ({ whereCond := some (w, params) } : QB W P) vals
             :: QEvent.selectExec ({ whereCond := some (w, none) } : QB W P)
             :: (getMany ({ whereCond := some (w, none) } : QB W P)
                  (execUpdate ({ whereCond := some (w, params) } : QB W P)
                    vals s)).map QEvent.notifyStart) := rfl

/-- C1: `updateAsync` follows the retrieve-validate-mutate-retrieve
protocol: it first calls the retrieval; when that yields nothing it throws
the not-found error ("Not possible to update the given entity") having
issued zero store-level update calls, and when a value `b` is present it
issues the store update, then (when `notify` is supplied) invokes the
callback exactly once, awaited, with the pre-mutation snapshot `b`, and
finally returns the result of a second retrieval, i.e. the post-mutation
state. -/
theorem C1_update_retrieve_validate_mutate_retrieve
    {σ B R : Type} (retrieve : σ → Option B) (repoUpdate : σ → σ)
    (f : B → Except Unit R) (s : σ) :
    (retrieve s = none →
      Base.updateAsync retrieve repoUpdate (some f) s
        = (.error .notFound, [.retrieveCall]) ∧
      Base.updateAsync retrieve repoUpdate (none : Option (B → Except Unit R)) s
        = (.error .notFound, [.retrieveCall])) ∧
    (∀ b, retrieve s = some b → (f b).isOk = true →
      Base.updateAsync retrieve repoUpdate (some f) s
        = (.ok (retrieve (repoUpdate s)),
           [.retrieveCall, .storeUpdate, .notifyStart b, .notifyDone b,
            .retrieveCall])) ∧
    (∀ b, retrieve s = some b →
      Base.updateAsync retrieve repoUpdate (none : Option (B → Except Unit R)) s
        = (.ok (retrieve (repoUpdate s)),
           [.retrieveCall, .storeUpdate, .retrieveCall])) := by
  refine ⟨fun h => ⟨?_, ?_⟩, fun b hb hok => ?_, fun b hb => ?_⟩
  · simp [Base.updateAsync, h]
  · simp [Base.updateAsync, h]
  · cases hfb : f b with
    | error e => rw [hfb] at hok; simp [Except.isOk, Except.toBool] at hok
    | ok r => simp [Base.updateAsync, hb, hfb]
  · simp [Base.updateAsync, hb]

/-- Witness for C1: a concrete store where the target is absent, and one
where it is present and the patch increments the stored value. -/
theorem C1_witness :
    (Base.updateAsync (fun _ : Nat => (none : Option Nat)) id
        (some fun b => (Except.ok b : Except Unit Nat)) 0
      = (.error .notFound, [.retrieveCall])) ∧
    (Base.updateAsync (fun s : Nat => some s) (fun s => s + 1)
        (some fun b => (Except.ok b : Except Unit Nat)) 0
      = (.ok (some 1),
         [.retrieveCall, .storeUpdate, .notifyStart 0, .notifyDone 0,
          .retrieveCall])) :=
  ⟨((C1_update_retrieve_validate_mutate_retrieve
        (fun _ : Nat => (none : Option Nat)) id
        (fun b => (Except.ok b : Except Unit Nat)) 0).1 rfl).1,
   (C1_update_retrieve_validate_mutate_retrieve
        (fun s : Nat => some s) (fun s => s + 1)
        (fun b => (Except.ok b : Except Unit Nat)) 0).2.1 0 rfl rfl⟩

/-- C2 counterexample: `simplifiedQueryBuilderAsync` invoked with lock mode
`optimistic` and no version token raises no error at all: it silently falls
back to a fresh unlocked query builder. -/
theorem C2_counterexample :
    Base.simplifiedQueryBuilderAsync Unit Unit (some .optimistic) none
      = .ok ({ lock := none } : QB Unit Unit) := rfl

/-- C2 amended: `createQueryBuilderAsync` does raise the lock-version
configuration error when `optimistic` is requested without a truthy version
token, without recording any lock on a builder; but
`simplifiedQueryBuilderAsync` — through which `selectQueryBuilderAsync`,
`deleteQueryBuilderAsync` and `updateEntriesAsync` obtain their builders —
silently falls back to building an unlocked query in that case. -/
theorem C2_optimistic_without_version (W P : Type)
    (lockVersion : Option LockVersion)
    (h : truthyVersion lockVersion = false) :
    Base.createQueryBuilderAsync W P (some .optimistic) lockVersion
      = .error .lockVersionNotSpecified ∧
    Base.simplifiedQueryBuilderAsync W P (some .optimistic) lockVersion
      = .ok ({ lock := none } : QB W P) := by
  constructor
  · simp [Base.createQueryBuilderAsync, h]
  · simp [Base.simplifiedQueryBuilderAsync, Base.createQueryBuilderAsync, h]

/-- Witness for the amended C2, at a missing version token. -/
theorem C2_witness :
    Base.createQueryBuilderAsync Unit Unit (some .optimistic) none
      = .error .lockVersionNotSpecified ∧
    Base.simplifiedQueryBuilderAsync Unit Unit (some .optimistic) none
      = .ok ({ lock := none } : QB Unit Unit) :=
  C2_optimistic_without_version Unit Unit none rfl

/-- C3 counterexample: two runs of `updateAsync` that differ only in the
notification callback's outcome produce different primary results — the
failing callback aborts the operation, the succeeding one lets it return the
post-mutation optional. -/
theorem C3_counterexample :
    (Base.updateAsync (fun _ : Nat => some 7) id
        (some fun _ : Nat => (Except.error () : Except Unit Unit)) 0).1
      = .error .notifyFailed ∧
    (Base.updateAsync (fun _ : Nat => some 7) id
        (some fun _ : Nat => (Except.ok () : Except Unit Unit)) 0).1
      = .ok (some 7) := ⟨rfl, rfl⟩

/-- C3 amended: a succeeding callback's returned value never changes an
operation's primary result (the result equals the no-callback result), and
in the fire-and-forget bulk paths
(`deleteEntriesBasedOnConditionPessimisticAsync`, `updateEntriesAsync`) the
callback's entire outcome is irrelevant to the operation; but in the awaited
paths (`updateAsync`, `createOneAsync`, `deleteOneAsync`) a callback failure
aborts the operation with an error in place of its normal result. -/
theorem C3_notify_outcome_effect
    {σ A B T R W P U : Type}
    (retrieve : σ → Option B) (repoUpdate : σ → σ)
    (save : σ → A → A × σ) (cfm : A → B)
    (f : B → Except Unit R) (fT gT : T → Except Unit R)
    (getMany : QB W P → σ → List T) (execDelete : QB W P → σ → σ)
    (execUpdate : QB W P → U → σ → σ) (vals : U)
    (w : W) (params : Option P) (x : A) (s : σ) :
    (∀ b, retrieve s = some b → (f b).isOk = false →
       (Base.updateAsync retrieve repoUpdate (some f) s).1
         = .error .notifyFailed) ∧
    ((f (cfm (save s x).1)).isOk = false →
       (Base.createOneAsync save cfm (some f) x s).1 = .error .notifyFailed) ∧
    (∀ b, retrieve s = some b → (f b).isOk = false →
       (Base.deleteOneAsync retrieve (some f) s).1 = .error .notifyFailed) ∧
    (∀ b, retrieve s = some b → (f b).isOk = true →
       (Base.updateAsync retrieve repoUpdate (some f) s).1
         = (Base.updateAsync retrieve repoUpdate
              (none : Option (B → Except Unit R)) s).1) ∧
    ((f (cfm (save s x).1)).isOk = true →
       (Base.createOneAsync save cfm (some f) x s).1
         = (Base.createOneAsync save cfm
              (none : Option (B → Except Unit R)) x s).1) ∧
    (∀ b, retrieve s = some b → (f b).isOk = true →
       (Base.deleteOneAsync retrieve (some f) s).1
         = (Base.deleteOneAsync retrieve
              (none : Option (B → Except Unit R)) s).1) ∧
    (Base.deleteEntriesBasedOnConditionPessimisticAsync (U := U)
        getMany execDelete (some fT) w params s
      = Base.deleteEntriesBasedOnConditionPessimisticAsync (U := U)
          getMany execDelete (some gT) w params s) ∧
    (Base.updateEntriesAsync execUpdate getMany vals (some fT)
        w params none none s
      = Base.updateEntriesAsync execUpdate getMany vals (some gT)
          w params none none s) := by
  refine ⟨fun b hb hbad => ?_, fun hbad => ?_, fun b hb hbad => ?_,
          fun b hb hok => ?_, fun hok => ?_, fun b hb hok => ?_, rfl, rfl⟩
  · cases hfb : f b with
    | error e => simp [Base.updateAsync, hb, hfb]
    | ok r => rw [hfb] at hbad; simp [Except.isOk, Except.toBool] at hbad
  · cases hfb : f (cfm (save s x).1) with
    | error e => simp [Base.createOneAsync, hfb]
    | ok r => rw [hfb] at hbad; simp [Except.isOk, Except.toBool] at hbad
  · cases hfb : f b with
    | error e => simp [Base.deleteOneAsync, hb, hfb]
    | ok r => rw [hfb] at hbad; simp [Except.isOk, Except.toBool] at hbad
  · cases hfb : f b with
    | error e => rw [hfb] at hok; simp [Except.isOk, Except.toBool] at hok
    | ok r => simp [Base.updateAsync, hb, hfb]
  · cases hfb : f (cfm (save s x).1) with
    | error e => rw [hfb] at hok; simp [Except.isOk, Except.toBool] at hok
    | ok r => simp [Base.createOneAsync, hfb]
  · cases hfb : f b with
    | error e => rw [hfb] at hok; simp [Except.isOk, Except.toBool] at hok
    | ok r => simp [Base.deleteOneAsync, hb, hfb]

/-- Witness for the amended C3: the callback aborts `updateAsync` when it
fails, and a succeeding callback leaves the primary result equal to the
no-callback run; the fire-and-forget bulk delete ignores the callback's
outcome entirely. -/
theorem C3_witness :
    (Base.updateAsync (fun s : Nat => some s) id
        (some fun _ : Nat => (Except.error () : Except Unit Nat)) 5).1
      = .error .notifyFailed ∧
    (Base.updateAsync (fun s : Nat => some s) id
        (some fun n : Nat => (Except.ok n : Except Unit Nat)) 5).1
      = (Base.updateAsync (fun s : Nat => some s) id
          (none : Option (Nat → Except Unit Nat)) 5).1 ∧
    Base.deleteEntriesBasedOnConditionPessimisticAsync
        (σ := Nat) (W := Unit) (P := Unit) (U := Unit)
        (fun _ _ => ([3, 4] : List Nat)) (fun _ s => s)
        (some fun _ : Nat => (Except.error () : Except Unit Nat)) () none 5
      = Base.deleteEntriesBasedOnConditionPessimisticAsync
          (σ := Nat) (W := Unit) (P := Unit) (U := Unit)
          (fun _ _ => ([3, 4] : List Nat)) (fun _ s => s)
          (some fun n : Nat => (Except.ok n : Except Unit Nat)) () none 5 :=
  ⟨(C3_notify_outcome_effect (A := Nat) (T := Nat) (W := Unit) (P := Unit)
      (U := Unit) (fun s : Nat => some s) id (fun s x => (x, s)) id
      (fun _ => Except.error ()) (fun _ => Except.error ())
      (fun n => Except.ok n) (fun _ _ => [3, 4]) (fun _ s => s)
      (fun _ _ s => s) () () none 0 5).1 5 rfl rfl,
   (C3_notify_outcome_effect (A := Nat) (T := Nat) (W := Unit) (P := Unit)
      (U := Unit) (fun s : Nat => some s) id (fun s x => (x, s)) id
      (fun n => Except.ok n) (fun _ => Except.error ())
      (fun n => Except.ok n) (fun _ _ => [3, 4]) (fun _ s => s)
      (fun _ _ s => s) () () none 0 5).2.2.2.1 5 rfl rfl,
   (C3_notify_outcome_effect (A := Nat) (B := Nat) (W := Unit) (P := Unit)
      (U := Unit) (fun s : Nat => some s) id (fun s x => (x, s)) id
      (fun n => Except.ok n) (fun _ => Except.error ())
      (fun n => Except.ok n) (fun _ _ => [3, 4]) (fun _ s => s)
      (fun _ _ s => s) () () none 0 5).2.2.2.2.2.2.1⟩

/-- C4: `deleteOneAsync` on a non-existent target returns the absent
optional without throwing, with zero delete calls in the trace; on an
existing target `b` it issues exactly one delete call and exactly one
(awaited) notify call whose argument is the pre-delete snapshot `b`, and
returns that pre-delete snapshot. -/
theorem C4_deleteOne_semantics {σ B R : Type}
    (retrieve : σ → Option B) (f : B → Except Unit R) (s : σ) :
    (retrieve s = none →
       Base.deleteOneAsync retrieve (some f) s = (.ok none, [.retrieveCall])) ∧
    (∀ b, retrieve s = some b → (f b).isOk = true →
       Base.deleteOneAsync retrieve (some f) s
         = (.ok (some b),
            [.retrieveCall, .storeDelete, .notifyStart b, .notifyDone b])) := by
  refine ⟨fun h => ?_, fun b hb hok => ?_⟩
  · simp [Base.deleteOneAsync, h]
  · cases hfb : f b with
    | error e => rw [hfb] at hok; simp [Except.isOk, Except.toBool] at hok
    | ok r => simp [Base.deleteOneAsync, hb, hfb]

/-- Witness for C4: an absent target and a present one over a store holding
an optional number. -/
theorem C4_witness :
    (Base.deleteOneAsync (fun s : Option Nat => s)
        (some fun b => (Except.ok b : Except Unit Nat)) none
      = (.ok none, [.retrieveCall])) ∧
    (Base.deleteOneAsync (fun s : Option Nat => s)
        (some fun b => (Except.ok b : Except Unit Nat)) (some 9)
      = (.ok (some 9),
         [.retrieveCall, .storeDelete, .notifyStart 9, .notifyDone 9])) :=
  ⟨(C4_deleteOne_semantics (fun s : Option Nat => s)
      (fun b => (Except.ok b : Except Unit Nat)) none).1 rfl,
   (C4_deleteOne_semantics (fun s : Option Nat => s)
      (fun b => (Except.ok b : Except Unit Nat)) (some 9)).2 9 rfl rfl⟩

/-- C5: `deleteEntriesBasedOnConditionPessimisticAsync` selects the rows
matching the condition (through an unlocked select builder carrying the
given where condition and parameters), dispatches the notification once per
selected row, then executes a second, independently `pessimistic_write`-
locked delete builder carrying the same where condition and parameters
against the store, and returns the rows selected before the delete. -/
theorem C5_deleteByCondition_select_notify_then_locked_delete
    {σ T R W P U : Type}
    (getMany : QB W P → σ → List T) (execDelete : QB W P → σ → σ)
    (f : T → Except Unit R) (w : W) (params : Option P) (s : σ) :
    Base.deleteEntriesBasedOnConditionPessimisticAsync (U := U)
        getMany execDelete (some f) w params s
      = .ok
          (getMany ({ whereCond := some (w, params) } : QB W P) s,
           execDelete
             ({ lock := some (.pessimistic_write, none),
                whereCond := some (w, params) } : QB W P) s,
           (QEvent.selectExec ({ whereCond := some (w, params) } : QB W P)
              :: (getMany ({ whereCond := some (w, params) } : QB W P) s).map
                   QEvent.notifyStart)
             ++ [QEvent.deleteExec
                   ({ lock := some (.pessimistic_write, none),
                      whereCond := some (w, params) } : QB W P)]) := rfl

/-- C6: the per-operation notification-awaiting asymmetry.  `createOneAsync`
invokes the callback exactly once and awaits it before returning (its trace
ends with the matching `notifyDone`); `createAsync` awaits every per-record
notification before returning (every created record has a `notifyDone` in
the trace); the bulk paths `deleteEntriesBasedOnConditionPessimisticAsync`
and `updateEntriesAsync` dispatch one `notifyStart` per affected record but
their traces contain no `notifyDone` at all — the dispatches are not awaited
before returning. -/
theorem C6_notification_await_asymmetry
    {σ A B T R W P U : Type}
    (save : σ → A → A × σ) (saveMany : σ → List A → List A × σ)
    (cfm : A → B) (f : B → Except Unit R) (fT : T → Except Unit R)
    (getMany : QB W P → σ → List T) (execDelete : QB W P → σ → σ)
    (execUpdate : QB W P → U → σ → σ) (vals : U)
    (w : W) (params : Option P) (x : A) (xs : List A) (s : σ) :
    ((f (cfm (save s x).1)).isOk = true →
       (Base.createOneAsync save cfm (some f) x s).2.2
         = [.storeSave, .notifyStart (cfm (save s x).1),
            .notifyDone (cfm (save s x).1)]) ∧
    (((saveMany s xs).1.map cfm).all (fun b => (f b).isOk) = true →
       (Base.createAsync saveMany cfm (some f) xs s).2.2
         = .storeSave :: (((saveMany s xs).1.map cfm).map Event.notifyStart
             ++ ((saveMany s xs).1.map cfm).map Event.notifyDone)) ∧
    (∀ out, Base.deleteEntriesBasedOnConditionPessimisticAsync (U := U)
          getMany execDelete (some fT) w params s = .ok out →
       (∀ t ∈ getMany ({ whereCond := some (w, params) } : QB W P) s,
          QEvent.notifyStart t ∈ out.2.2) ∧
       (∀ t, QEvent.notifyDone t ∉ out.2.2)) ∧
    (∀ out, Base.updateEntriesAsync execUpdate getMany vals (some fT)
          w params none none s = .ok out →
       (∀ t ∈ out.1, QEvent.notifyStart t ∈ out.2.2) ∧
       (∀ t, QEvent.notifyDone t ∉ out.2.2)) := by
  refine ⟨fun hok => ?_, fun hall => ?_, fun out hout => ?_, fun out hout => ?_⟩
  · rcases hsv : save s x with ⟨saved, s₁⟩
    rw [hsv] at hok
    cases hfb : f (cfm saved) with
    | error e => rw [hfb] at hok; simp [Except.isOk, Except.toBool] at hok
    | ok r => simp [Base.createOneAsync, hsv, hfb]
  · rcases hsv : saveMany s xs with ⟨savedList, s₁⟩
    rw [hsv] at hall
    simp only [Base.createAsync, hsv]
    rw [hall]
    rfl
  · rw [deleteEntries_eval getMany execDelete fT w params s] at hout
    injection hout with h
    subst h
    constructor
    · intro t ht
      exact List.mem_append_left _
        (List.mem_cons_of_mem _ (List.mem_map_of_mem _ ht))
    · intro t
      simp
  · rw [updateEntries_eval execUpdate getMany vals fT w params s] at hout
    injection hout with h
    subst h
    constructor
    · intro t ht
      exact List.mem_cons_of_mem _
        (List.mem_cons_of_mem _ (List.mem_map_of_mem _ ht))
    · intro t
      simp

/-- Witness for C6 at concrete stores: the single-create and bulk-create
traces contain the awaited `notifyDone` markers, while the concrete bulk
delete and bulk update traces contain none. -/
theorem C6_witness :
    (Base.createOneAsync (fun (s x : Nat) => (x, s)) id
        (some fun n => (Except.ok n : Except Unit Nat)) 7 0).2.2
      = [.storeSave, .notifyStart 7, .notifyDone 7] ∧
    (Base.createAsync (fun (s : Nat) (xs : List Nat) => (xs, s)) id
        (some fun n => (Except.ok n : Except Unit Nat)) [1, 2] 0).2.2
      = [.storeSave, .notifyStart 1, .notifyStart 2, .notifyDone 1,
         .notifyDone 2] ∧
    QEvent.notifyDone (3 : Nat) ∉
      ([QEvent.selectExec ({ whereCond := some ((), none) } : QB Unit Unit),
        QEvent.notifyStart 3, QEvent.notifyStart 4,
        QEvent.deleteExec
          ({ lock := some (.pessimistic_write, none),
             whereCond := some ((), none) } : QB Unit Unit)]
        : List (QEvent Nat Unit Unit Unit)) ∧
    QEvent.notifyDone (3 : Nat) ∉
      ([QEvent.updateExec ({ whereCond := some ((), none) } : QB Unit Unit) (),
        QEvent.selectExec ({ whereCond := some ((), none) } : QB Unit Unit),
        QEvent.notifyStart 3, QEvent.notifyStart 4]
        : List (QEvent Nat Unit Unit Unit)) :=
  ⟨(C6_notification_await_asymmetry (P := Unit) (fun (s x : Nat) => (x, s))
      (fun (s : Nat) (xs : List Nat) => (xs, s)) id
      (fun n => (Except.ok n : Except Unit Nat))
      (fun n => (Except.ok n : Except Unit Nat))
      (fun _ _ => [3, 4]) (fun _ s => s) (fun _ _ s => s)
      () () none 7 [1, 2] 0).1 rfl,
   (C6_notification_await_asymmetry (P := Unit) (fun (s x : Nat) => (x, s))
      (fun (s : Nat) (xs : List Nat) => (xs, s)) id
      (fun n => (Except.ok n : Except Unit Nat))
      (fun n => (Except.ok n : Except Unit Nat))
      (fun _ _ => [3, 4]) (fun _ s => s) (fun _ _ s => s)
      () () none 7 [1, 2] 0).2.1 rfl,
   ((C6_notification_await_asymmetry (P := Unit) (fun (s x : Nat) => (x, s))
      (fun (s : Nat) (xs : List Nat) => (xs, s)) id
      (fun n => (Except.ok n : Except Unit Nat))
      (fun n => (Except.ok n : Except Unit Nat))
      (fun _ _ => [3, 4]) (fun _ s => s) (fun _ _ s => s)
      () () none 7 [1, 2] 0).2.2.1
      ([3, 4], 0,
       [QEvent.selectExec { whereCond := some ((), none) },
        QEvent.notifyStart 3, QEvent.notifyStart 4,
        QEvent.deleteExec
          { lock := some (.pessimistic_write, none),
            whereCond := some ((), none) }]) rfl).2 3,
   ((C6_notification_await_asymmetry (P := Unit) (fun (s x : Nat) => (x, s))
      (fun (s : Nat) (xs : List Nat) => (xs, s)) id
      (fun n => (Except.ok n : Except Unit Nat))
      (fun n => (Except.ok n : Except Unit Nat))
      (fun _ _ => [3, 4]) (fun _ s => s) (fun _ _ s => s)
      () () none 7 [1, 2] 0).2.2.2
      ([3, 4], 0,
       [QEvent.updateExec { whereCond := some ((), none) } (),
        QEvent.selectExec { whereCond := some ((), none) },
        QEvent.notifyStart 3, QEvent.notifyStart 4]) rfl).2 3⟩

/-- C7: `anyAsync` returns true exactly when `findAsync` with the same
condition returns a non-empty sequence, and it is computed as
`getCount() > 0` over the where-filtered builder, not by materializing the
matched rows. -/
theorem C7_exists_iff_find_nonempty {A B : Type}
    (createFromModel : A → B) (condition : Option (A → Bool))
    (rows : List A) :
    (Base.anyAsync condition rows = true ↔
       Base.findAsync createFromModel condition none none none rows ≠ []) ∧
    Base.anyAsync condition rows
      = decide
          (ReadQB.getCount ({ whereCond := condition } : ReadQB A) rows > 0) := by
  constructor
  · cases condition with
    | none =>
        simp [Base.anyAsync, Base.findAsync, ReadQB.getCount, ReadQB.getMany,
              natTruthy, List.length_pos]
    | some p =>
        simp [Base.anyAsync, Base.findAsync, ReadQB.getCount, ReadQB.getMany,
              natTruthy, List.length_pos]
  · cases condition <;> rfl

/-- C8: `findOneAsync` routes a scalar (string, number or Date) condition to
the direct `repo.findOne` lookup path and a structured condition to the
query-builder path with the optional ordering applied; in both paths an
absent match yields the empty optional — and the embedding's result type is
a plain optional because the source function has no throw site at all. -/
theorem C8_findOne_absent_and_routing {A B : Type}
    (repoFindOne : ScalarKey → Option A) (createFromModel : A → B)
    (orderBy : Option (List A → List A)) (rows : List A) :
    (∀ k, (Base.findOneAsync repoFindOne createFromModel
              (some (.scalar k)) orderBy rows).2 = .direct) ∧
    (∀ k, repoFindOne k = none →
       (Base.findOneAsync repoFindOne createFromModel
           (some (.scalar k)) orderBy rows).1 = none) ∧
    (∀ p, (Base.findOneAsync repoFindOne createFromModel
              (some (.structured p)) orderBy rows).2 = .builder) ∧
    (∀ p, ReadQB.getOne
            ({ whereCond := some p, order := orderBy } : ReadQB A) rows = none →
       (Base.findOneAsync repoFindOne createFromModel
           (some (.structured p)) orderBy rows).1 = none) := by
  refine ⟨fun k => rfl, fun k h => ?_, fun p => ?_, fun p h => ?_⟩
  · simp [Base.findOneAsync, h]
  · cases orderBy <;> rfl
  · cases orderBy with
    | none => simp [Base.findOneAsync, h]
    | some o => simp [Base.findOneAsync, h]

/-- Witness for C8: an always-empty store: the scalar path is taken and
returns the empty optional, the structured path likewise. -/
theorem C8_witness :
    (Base.findOneAsync (fun _ => (none : Option Nat)) id
        (some (.scalar (.str "x"))) none []).2 = .direct ∧
    (Base.findOneAsync (fun _ => (none : Option Nat)) id
        (some (.scalar (.str "x"))) none []).1 = none ∧
    (Base.findOneAsync (fun _ => (none : Option Nat)) id
        (some (.structured fun _ => true)) none []).2 = .builder ∧
    (Base.findOneAsync (fun _ => (none : Option Nat)) id
        (some (.structured fun _ => true)) none []).1 = none :=
  ⟨(C8_findOne_absent_and_routing (fun _ => none) id none []).1 (.str "x"),
   (C8_findOne_absent_and_routing (fun _ => none) id none []).2.1
     (.str "x") rfl,
   (C8_findOne_absent_and_routing (fun _ => none) id none []).2.2.1
     (fun _ => true),
   (C8_findOne_absent_and_routing (fun _ => none) id none []).2.2.2
     (fun _ => true) rfl⟩

/-- C9 counterexample: the connection-name-aware
`simplifiedQueryBuilderAsync`, on the unlocked path (no lock mode), discards
the supplied connection name and builds against the default connection,
contrary to the claim that the unlocked path honors `connectionName`. -/
theorem C9_counterexample :
    Named.simplifiedQueryBuilderAsync Unit Unit none none (some "analytics")
      = .ok ({ connection := "default" } : QB Unit Unit) := rfl

/-- C9 amended: the connection-name-aware `simplifiedQueryBuilderAsync`
honors `connectionName` only on the optimistic-with-(truthy)-version path;
on the unlocked path, on both pessimistic paths, and on the
optimistic-without-version fallback, the builder is created against the
default connection and the supplied name is discarded. -/
theorem C9_connection_forwarding (W P : Type) (cn : String)
    (lockVersion : Option LockVersion) :
    (∀ v : LockVersion, v.truthy = true →
       Named.simplifiedQueryBuilderAsync W P (some .optimistic) (some v)
           (some cn)
         = .ok ({ connection := cn,
                  lock := some (.optimistic, some v) } : QB W P)) ∧
    (Named.simplifiedQueryBuilderAsync W P none lockVersion (some cn)
       = .ok ({ connection := "default" } : QB W P)) ∧
    (Named.simplifiedQueryBuilderAsync W P (some .pessimistic_read)
         lockVersion (some cn)
       = .ok ({ connection := "default",
                lock := some (.pessimistic_read, none) } : QB W P)) ∧
    (Named.simplifiedQueryBuilderAsync W P (some .pessimistic_write)
         lockVersion (some cn)
       = .ok ({ connection := "default",
                lock := some (.pessimistic_write, none) } : QB W P)) ∧
    (truthyVersion lockVersion = false →
       Named.simplifiedQueryBuilderAsync W P (some .optimistic) lockVersion
           (some cn)
         = .ok ({ connection := "default" } : QB W P)) := by
  refine ⟨fun v hv => ?_, rfl, rfl, rfl, fun h => ?_⟩
  · simp [Named.simplifiedQueryBuilderAsync, Named.createQueryBuilderAsync,
          truthyVersion, hv, Named.resolveConnection]
  · simp [Named.simplifiedQueryBuilderAsync, Named.createQueryBuilderAsync,
          Named.resolveConnection, h]

/-- Witness for the amended C9 with connection name "analytics": forwarded
under optimistic with a counter version, discarded under pessimistic write
and under optimistic without a version. -/
theorem C9_witness :
    Named.simplifiedQueryBuilderAsync Unit Unit (some .optimistic)
        (some (.counter 2)) (some "analytics")
      = .ok ({ connection := "analytics",
               lock := some (.optimistic, some (.counter 2)) } : QB Unit Unit) ∧
    Named.simplifiedQueryBuilderAsync Unit Unit (some .pessimistic_write)
        none (some "analytics")
      = .ok ({ connection := "default",
               lock := some (.pessimistic_write, none) } : QB Unit Unit) ∧
    Named.simplifiedQueryBuilderAsync Unit Unit (some .optimistic) none
        (some "analytics")
      = .ok ({ connection := "default" } : QB Unit Unit) :=
  ⟨(C9_connection_forwarding Unit Unit "analytics" none).1 (.counter 2) rfl,
   (C9_connection_forwarding Unit Unit "analytics" none).2.2.2.1,
   (C9_connection_forwarding Unit Unit "analytics" none).2.2.2.2 rfl⟩

/-- The lock state `simplifiedQueryBuilderAsync` ends up recording: an
optimistic request is kept only with a truthy version, a pessimistic request
is kept, anything else yields an unlocked builder. -/
def simplifiedLock (lockMode : Option LockMode)
    (lockVersion : Option LockVersion) :
    Option (LockMode × Option LockVersion) :=
  match lockMode with
  | some .optimistic =>
      if truthyVersion lockVersion then some (.optimistic, lockVersion)
      else none
  | some .pessimistic_read => some (.pessimistic_read, none)
  | some .pessimistic_write => some (.pessimistic_write, none)
  | none => none

/-- `simplifiedQueryBuilderAsync` never errors: every branch either forwards
a truthy version token or drops the lock request, so the result is always a
builder, whose lock is `simplifiedLock`. -/
theorem simplified_eval (W P : Type) (lockMode : Option LockMode)
    (lockVersion : Option LockVersion) :
    Base.simplifiedQueryBuilderAsync W P lockMode lockVersion
      = .ok ({ lock := simplifiedLock lockMode lockVersion } : QB W P) := by
  cases lockMode with
  | none => rfl
  | some m =>
      cases m with
      | pessimistic_read => rfl
      | pessimistic_write => rfl
      | optimistic =>
          by_cases hv : truthyVersion lockVersion = true
          · simp [Base.simplifiedQueryBuilderAsync,
                  Base.createQueryBuilderAsync, simplifiedLock, hv]
          · simp [Base.simplifiedQueryBuilderAsync,
                  Base.createQueryBuilderAsync, simplifiedLock, hv]

/-- C10: `updateEntriesAsync` notifies with post-mutation state: the store
update (with the given condition, parameters and set values) executes first,
with no retrieval guard and no not-found error — the result is `ok`
unconditionally, even when the re-select yields no rows; the re-select with
the same where condition then runs against the post-update store, each
re-selected row is dispatched to `sendEvent` with no awaited completion in
the trace, and those post-mutation rows are returned. -/
theorem C10_updateEntries_post_mutation {σ T R W P U : Type}
    (execUpdate : QB W P → U → σ → σ) (getMany : QB W P → σ → List T)
    (vals : U) (f : T → Except Unit R) (w : W) (params : Option P)
    (lockMode : Option LockMode) (lockVersion : Option LockVersion)
    (qb₀ : QB W P)
    (h : Base.simplifiedQueryBuilderAsync W P lockMode lockVersion = .ok qb₀)
    (s : σ) :
    Base.updateEntriesAsync execUpdate getMany vals (some f) w params
        lockMode lockVersion s
      = .ok
          (getMany ({ whereCond := some (w, none) } : QB W P)
             (execUpdate (qb₀.whereM w params) vals s),
           execUpdate (qb₀.whereM w params) vals s,
           QEvent.updateExec (qb₀.whereM w params) vals
             :: QEvent.selectExec ({ whereCond := some (w, none) } : QB W P)
             :: (getMany ({ whereCond := some (w, none) } : QB W P)
                  (execUpdate (qb₀.whereM w params) vals s)).map
                  QEvent.notifyStart) := by
  rw [simplified_eval] at h
  injection h with h'
  subst h'
  simp only [Base.updateEntriesAsync, simplified_eval,
             Base.selectQueryBuilderAsync, Except.map, QB.whereM,
             simplifiedLock]

/-- Witness for C10: a numeric store where the update adds the set value and
the re-select returns the single post-mutation row. -/
theorem C10_witness :
    Base.updateEntriesAsync (W := Unit) (P := Unit)
        (fun _ v s => s + v) (fun _ s => [s]) 5
        (some fun n => (Except.ok n : Except Unit Nat)) () none none none 1
      = .ok
          ([6], 6,
           [QEvent.updateExec ({ whereCond := some ((), none) } : QB Unit Unit) 5,
            QEvent.selectExec ({ whereCond := some ((), none) } : QB Unit Unit),
            QEvent.notifyStart 6]) :=
  C10_updateEntries_post_mutation (W := Unit) (P := Unit)
    (fun _ v s => s + v) (fun _ s => [s]) 5
    (fun n => (Except.ok n : Except Unit Nat)) () none none none {} rfl 1

end TEF
